import Mathlib

/-!
Verification of the icon-generator rendering engine (src/renderer.ts).

The SVG string emission of `IconRenderer` is embedded shallowly: the emitted
document is modelled as a list of structured elements (`SvgElem`) in emission
order, numeric attributes are exact rationals, and the injected browser
capabilities - the canvas text-measurement context and the DOMParser used on
glyph markup - are passed as explicit parameters (`MeasureOracle`,
`SvgParser`), as are the runtime-loaded contents of the icon cache
(`IconsCache`) consumed by the icons module code.
-/

namespace IconGen

/-- Background kinds, from src/types.ts `BackgroundType`. -/
inductive BackgroundType where
  | solid
  | transparent
  | linearGradient
  | radialGradient
deriving DecidableEq

/-- Foreground kinds, from src/types.ts `ForegroundType`. -/
inductive ForegroundType where
  | text
  | emoji
  | emojiMono
  | icon
deriving DecidableEq

/-- Background substructure of `IconConfig`, from src/types.ts. -/
structure Background where
  type : BackgroundType
  color : String
  gradientColor : Option String
  gradientAngle : Option ℚ
  gradientSize : Option ℚ
  borderRadius : Option ℚ
deriving DecidableEq

/-- Foreground substructure of `IconConfig`, from src/types.ts. -/
structure Foreground where
  type : ForegroundType
  color : String
  text : Option String
  emoji : Option String
  iconName : Option String
  size : Option ℚ
  fontFamily : Option String
  fontWeight : Option String
  fontStyle : Option String
  textDecoration : Option String
  monospace : Option Bool
deriving DecidableEq

/-- The configuration record, from src/types.ts `IconConfig`. -/
structure IconConfig where
  background : Background
  foreground : Foreground
deriving DecidableEq

/-- JavaScript `x || d` on an optional number: `undefined` and `0` are falsy. -/
def jsOrQ (o : Option ℚ) (d : ℚ) : ℚ :=
  match o with
  | none => d
  | some v => if v = 0 then d else v

/-- JavaScript `x || d` on an optional string: `undefined` and `""` are falsy. -/
def jsOrStr (o : Option String) (d : String) : String :=
  match o with
  | none => d
  | some s => if s = "" then d else s

/-- JavaScript truthiness of an optional string. -/
def truthyStr (o : Option String) : Bool :=
  match o with
  | none => false
  | some s => !s.isEmpty

/-- Whether a background type name contains the substring "gradient"
(`this.config.background.type.includes('gradient')`, renderer.ts line 54). -/
def isGradientType (t : BackgroundType) : Bool :=
  match t with
  | .linearGradient => true
  | .radialGradient => true
  | _ => false

/-- A hexadecimal digit, as in the character class of the renderer.ts line 57
regular expression. -/
def isHexDigit (c : Char) : Bool :=
  ('0' ≤ c && c ≤ '9') || ('a' ≤ c && c ≤ 'f') || ('A' ≤ c && c ≤ 'F')

/-- `fill.match(/#[0-9a-fA-F]{8}$/)` (renderer.ts line 57): the string ends in
a `#` followed by exactly eight hexadecimal digits. -/
def matchesHex8 (s : String) : Bool :=
  let r := s.data.reverse
  (r.take 8).all isHexDigit && r.get? 8 == some '#'

/-- Numeric value of a hexadecimal digit (0 for other characters; only applied
under the `matchesHex8` guard, as `parseInt` is in the source). -/
def hexVal (c : Char) : ℕ :=
  if '0' ≤ c && c ≤ '9' then c.toNat - '0'.toNat
  else if 'a' ≤ c && c ≤ 'f' then c.toNat - 'a'.toNat + 10
  else if 'A' ≤ c && c ≤ 'F' then c.toNat - 'A'.toNat + 10
  else 0

/-- `parseInt(fill.slice(-2), 16)` (renderer.ts line 58): the last two
characters read as a hexadecimal byte. -/
def hexAlphaByte (s : String) : ℕ :=
  match s.data.reverse with
  | c0 :: c1 :: _ => 16 * hexVal c1 + hexVal c0
  | _ => 0

/-- The `fill` local of renderer.ts lines 53-56: the background color, replaced
by the gradient reference for gradient kinds. -/
def backgroundFill (bg : Background) : String :=
  if isGradientType bg.type then "url(#bgGradient)" else bg.color

/-- The `alpha` local of renderer.ts lines 51-68: 0 for transparent, the
embedded hex alpha byte over 255 when the fill string ends in 8 hex digits,
otherwise 1. -/
def computedAlpha (bg : Background) : ℚ :=
  if bg.type = .transparent then 0
  else if matchesHex8 (backgroundFill bg) then (hexAlphaByte (backgroundFill bg) : ℚ) / 255
  else 1

/-- The `rx`/`ry` value of the background rectangle (renderer.ts lines 21 and
61-65): `borderRadius * size / 100`, recorded as 0 when the attribute is
omitted because the computed radius is not positive. -/
def bgRx (bg : Background) (size : ℚ) : ℚ :=
  let borderRadius := jsOrQ bg.borderRadius 0 * size / 100
  if borderRadius > 0 then borderRadius else 0

/-- An attribute value on an embedded icon root element: the source writes
numbers through `toString`, modelled here as a tagged value. -/
inductive AttrVal where
  | str (s : String)
  | num (q : ℚ)
deriving DecidableEq

/-- A structured element of the emitted SVG document, in emission order.
Numeric attributes are exact rationals; the constant `x="50%"` of the flowed
text element and the fixed document header or closing tag carry no
configuration data and are not recorded. -/
inductive SvgElem where
  /-- `<rect width height [x y] [rx ry] fill fill-opacity />` with `x`, `y`
  and `rx`, `ry` recorded as 0 when the source omits them. -/
  | rect (width height x y rx : ℚ) (fill : String) (fillOpacity : ℚ)
  /-- The `<defs><linearGradient ...>` block (renderer.ts lines 34-39); the
  stop endpoints are a fixed function of the angle, `linearGradientCoords`. -/
  | linearGradientDef (angleDeg : ℚ) (stop1 stop2 : String)
  /-- The `<defs><radialGradient ...>` block (renderer.ts lines 43-48). -/
  | radialGradientDef (radiusPercent : ℚ) (stop1 stop2 : String)
  /-- One per-character `<text>` element of the monospace grid
  (renderer.ts line 188). -/
  | charText (x y fontSize : ℚ)
      (fill fontFamily fontWeight fontStyle textDecoration : String)
      (content : String)
  /-- The flowed `<text>` element with its `<tspan>` children as
  (dy, escaped content) pairs (renderer.ts lines 225-232). -/
  | flowText (firstLineY fontSize : ℚ)
      (fill fontFamily fontWeight fontStyle textDecoration : String)
      (spans : List (ℚ × String))
  /-- The emoji `<foreignObject>` with its `<div>` children
  (renderer.ts lines 206-212). -/
  | foreignObject (x y width height : ℚ) (fontFamilyStyle : String)
      (fontSize lineHeight : ℚ) (color : String) (divs : List String)
  /-- The embedded icon root element after attribute rewriting
  (renderer.ts lines 273-279), with its inner markup untouched. -/
  | iconElem (attrs : List (String × AttrVal)) (inner : String)
deriving DecidableEq

/-- The root `<svg>` element of glyph markup as exposed by the browser
`DOMParser` plus `querySelector('svg')` step (renderer.ts lines 267-271): its
attribute list and its inner markup, which the renderer rewrites and embeds. -/
structure SvgRoot where
  attrs : List (String × AttrVal)
  inner : String
deriving DecidableEq

/-- The icon cache of the icons module (imported by the renderer as
`./icons`): a `Map<string, string>` from icon name to glyph markup,
populated at runtime from the bundled tabler JSON payloads; the map contents
are runtime data, so the cache is a parameter of the embedding. -/
def IconsCache : Type := List (String × String)

/-- `Map.get` on the icon cache: the value of the first matching key. -/
def mapGet : List (String × String) → String → Option String
  | [], _ => none
  | (k, v) :: rest, name => if k = name then some v else mapGet rest name

/-- `getIconSvg` of the icons module:
`iconsCache.get(iconName) || null` - an absent entry, and an empty markup
string, which is falsy, both yield null. -/
def getIconSvg (iconsCache : IconsCache) (iconName : String) : Option String :=
  match mapGet iconsCache iconName with
  | none => none
  | some s => if s = "" then none else some s

/-- One entry of the tabler path-data JSON consumed by the icons module: a
`[elementType, attributes]` pair, with the `d` attribute of the path
(`attributes.d`, absent modelled as `none`). -/
structure PathItem where
  elementType : String
  d : Option String
deriving DecidableEq

/-- `createSvgFromPaths` of the icons module:
each path entry becomes a `<path>` element - the background path,
whose data starts with "M0 0", gets stroke="none" fill="none" - and the
concatenation is wrapped in the fixed filled root tag (fill="currentColor")
or outline root tag (fill="none" stroke="currentColor" ...). -/
def createSvgFromPaths (pathData : List PathItem) (filled : Bool) : String :=
  let pathElements := String.join (pathData.map (fun item =>
    if item.elementType = "path" then
      let d := jsOrStr item.d ""
      if d.data.take 4 = "M0 0".data then
        "<path stroke=\"none\" fill=\"none\" d=\"" ++ d ++ "\" />"
      else
        "<path d=\"" ++ d ++ "\" />"
    else ""))
  if filled then
    "<svg xmlns=\"http://www.w3.org/2000/svg\" width=\"24\" height=\"24\" viewBox=\"0 0 24 24\" fill=\"currentColor\">"
      ++ pathElements ++ "</svg>"
  else
    "<svg xmlns=\"http://www.w3.org/2000/svg\" width=\"24\" height=\"24\" viewBox=\"0 0 24 24\" fill=\"none\" stroke=\"currentColor\" stroke-width=\"2\" stroke-linecap=\"round\" stroke-linejoin=\"round\">"
      ++ pathElements ++ "</svg>"

/-- The `DOMParser` browser capability of renderer.ts lines 267-271: parse
glyph markup into its root svg element, or nothing when no svg root exists.
Like the measurement oracle it is a host API, passed as a parameter. -/
def SvgParser : Type := String → Option SvgRoot

/-- Split a character list at the first occurrence of `stop`, returning the
prefix and the remainder after it (the whole list and `[]` when absent). -/
def readUntil (stop : Char) : List Char → List Char × List Char
  | [] => ([], [])
  | c :: cs =>
      if c = stop then ([], cs)
      else
        let p := readUntil stop cs
        (c :: p.1, p.2)

/-- Parse a sequence of space-separated `key="value"` attribute pairs;
`none` on malformed input. The fuel bounds the recursion. -/
def parseAttrsAux : ℕ → List Char → Option (List (String × AttrVal))
  | 0, _ => none
  | _ + 1, [] => some []
  | fuel + 1, c :: cs =>
      if c = ' ' then parseAttrsAux fuel cs
      else
        let kv := readUntil '=' (c :: cs)
        match kv.2 with
        | '"' :: rest =>
            let vv := readUntil '"' rest
            match parseAttrsAux fuel vv.2 with
            | some attrs => some ((String.mk kv.1, AttrVal.str (String.mk vv.1)) :: attrs)
            | none => none
        | _ => none

/-- An executable reference instance of `SvgParser` for the glyph markup
this repository produces (one `<svg ...attrs...>inner</svg>` root with
double-quoted attributes, as built by `createSvgFromPaths`): the root
attribute list and the inner markup. Used to instantiate the parser
capability on concrete documents. -/
def parseSvgRoot (s : String) : Option SvgRoot :=
  let l := s.data
  if l.take 4 = "<svg".data then
    let tagAndBody := readUntil '>' (l.drop 4)
    match parseAttrsAux (tagAndBody.1.length + 1) tagAndBody.1 with
    | none => none
    | some attrs =>
        let body := tagAndBody.2
        if body.reverse.take 6 = "</svg>".data.reverse then
          some ⟨attrs, String.mk (body.take (body.length - 6))⟩
        else none
  else none

/-- The Text Measurement Oracle: the 2d canvas context of renderer.ts lines
249-255, `none` when `getContext` returns null; otherwise
`(text, fontSizePx, fontFamily) → measured width`. -/
def MeasureOracle : Type := Option (String → ℚ → String → ℚ)

/-- `element.setAttribute(k, v)`: replace the value of an existing attribute
or append a new one. -/
def setAttr : List (String × AttrVal) → String → AttrVal → List (String × AttrVal)
  | [], k, v => [(k, v)]
  | (k0, v0) :: rest, k, v =>
      if k0 = k then (k, v) :: rest else (k0, v0) :: setAttr rest k v

/-- Attribute lookup on an embedded element. -/
def lookupAttr : List (String × AttrVal) → String → Option AttrVal
  | [], _ => none
  | (k0, v0) :: rest, k => if k0 = k then some v0 else lookupAttr rest k

/-- Replace every occurrence of the character `t` by the character list `rep`;
one pass of the `.replace(/c/g, "...")` chain of `escapeXml`
(renderer.ts lines 282-289). -/
def replaceChar (t : Char) (rep : List Char) : List Char → List Char
  | [] => []
  | c :: cs =>
      if c = t then rep ++ replaceChar t rep cs else c :: replaceChar t rep cs

/-- The apostrophe character, code point 39. -/
def aposChar : Char := Char.ofNat 39

/-- The five-entity named character reference for the apostrophe. -/
def aposRef : List Char := ['&', 'a', 'p', 'o', 's', ';']

/-- The five sequential global replacements of `escapeXml`, ampersand first,
on the character list. -/
def escList (l : List Char) : List Char :=
  replaceChar aposChar aposRef
    (replaceChar '"' "&quot;".data
      (replaceChar '>' "&gt;".data
        (replaceChar '<' "&lt;".data
          (replaceChar '&' "&amp;".data l))))

/-- `escapeXml` (renderer.ts lines 282-289). -/
def escapeXml (s : String) : String :=
  String.mk (escList s.data)

/-- Split a string at literal newline characters; like the JavaScript
`textContent.split('\n')`, the result always has at least one entry. -/
def splitLinesAux : List Char → List Char → List (List Char)
  | [], acc => [acc.reverse]
  | c :: cs, acc =>
      if c = '\n' then acc.reverse :: splitLinesAux cs []
      else splitLinesAux cs (c :: acc)

/-- `textContent.split('\n')` (renderer.ts line 108). -/
def splitLines (s : String) : List String :=
  (splitLinesAux s.data []).map String.mk

/-- `Math.max(...lines.map(line => line.length))` (renderer.ts line 118) for
the nonempty line lists produced by `splitLines` (all lengths are
nonnegative, so folding from 0 agrees with the spread maximum). -/
def longestLen (lines : List String) : ℕ :=
  (lines.map String.length).foldr max 0

/-- `calculateFontSize` (renderer.ts lines 247-263): measure the text at font
size `maxSize` and scale down proportionally if it overflows; if the canvas
context is unavailable the fixed fallback `maxSize * 0.65` is returned. -/
def calculateFontSize (measure : MeasureOracle) (text : String) (maxSize : ℚ)
    (fontFamily : String) : ℚ :=
  match measure with
  | none => maxSize * (65 / 100)
  | some m =>
      let fontSize := maxSize
      let width := m text fontSize fontFamily
      if width > maxSize then (maxSize / width) * fontSize else fontSize

/-- The monospace branch of the font-size computation (renderer.ts lines
116-138), returning `(fontSize, charWidth)`. -/
def monoLayout (maxSize : ℚ) (lines : List String) : ℚ × ℚ :=
  let longestLineLength := longestLen lines
  let lineCount := lines.length
  if longestLineLength > 0 then
    let charWidth := maxSize / (longestLineLength : ℚ)
    let maxFontSizeByWidth := charWidth
    let maxFontSizeByHeight := maxSize / (lineCount : ℚ)
    (min maxFontSizeByHeight maxFontSizeByWidth, charWidth)
  else (maxSize, 0)

/-- Truthiness of `line.trim()` (renderer.ts line 146): a string trims to a
nonempty (truthy) string exactly when it has a non-whitespace character. -/
def hasNonWs (line : String) : Bool :=
  line.data.any (fun c => !c.isWhitespace)

/-- The normal-mode font-size computation (renderer.ts lines 139-156): the
minimum of the per-line width-fitted sizes over non-blank lines, further
bounded by `maxSize / lineCount`. -/
def normalFontSize (measure : MeasureOracle) (maxSize : ℚ) (fontFamily : String)
    (lines : List String) : ℚ :=
  let fontSize := lines.foldl
    (fun fs line =>
      if hasNonWs line then min fs (calculateFontSize measure line maxSize fontFamily)
      else fs)
    maxSize
  let maxFontSizeByHeight := maxSize / (lines.length : ℚ)
  min fontSize maxFontSizeByHeight

/-- The monospace per-character emission (renderer.ts lines 163-192): each
character of each line becomes its own centered `<text>` element on the fixed
pitch grid. -/
def monoTextElems (size charWidth fontSize : ℚ)
    (color fontFamily fontWeight fontStyle textDecoration : String)
    (lines : List String) : List SvgElem :=
  let lineHeight := fontSize
  let totalTextHeight := (lines.length : ℚ) * lineHeight
  let textBlockTop := (size - totalTextHeight) / 2
  let ascent := fontSize * (85 / 100)
  let firstLineY := textBlockTop + ascent
  lines.enum.flatMap (fun li =>
    let lineY := firstLineY + (li.1 : ℚ) * lineHeight
    let lineWidth := charWidth * (li.2.length : ℚ)
    let startX := size / 2 - lineWidth / 2
    li.2.data.enum.map (fun ci =>
      SvgElem.charText (startX + (ci.1 : ℚ) * charWidth + charWidth / 2) lineY
        fontSize color fontFamily fontWeight fontStyle textDecoration
        (escapeXml (String.mk [ci.2]))))

/-- The emoji emission (renderer.ts lines 193-213): one `<foreignObject>`
square centered on the canvas, one `<div>` per line, quotes stripped from the
font family for the inline style, line height 93 percent of the square. -/
def emojiElems (size maxSize fontSize : ℚ) (fontFamily color : String)
    (lines : List String) : List SvgElem :=
  let x := (size - maxSize) / 2
  let y := (size - maxSize) / 2
  let fontFamilyForStyle := String.mk (fontFamily.data.filter (fun c => c ≠ '"'))
  let adjustedLineHeight := maxSize * (93 / 100)
  [SvgElem.foreignObject x y maxSize maxSize fontFamilyForStyle fontSize
    adjustedLineHeight color (lines.map escapeXml)]

/-- The flowed text emission (renderer.ts lines 214-233): a single `<text>`
with one `<tspan>` per line, the first at dy 0 and the rest advancing by one
line height. -/
def flowTextElems (size fontSize : ℚ)
    (color fontFamily fontWeight fontStyle textDecoration : String)
    (lines : List String) : List SvgElem :=
  let lineHeight := fontSize
  let totalTextHeight := (lines.length : ℚ) * lineHeight
  let textBlockTop := (size - totalTextHeight) / 2
  let ascent := fontSize * (85 / 100)
  let firstLineY := textBlockTop + ascent
  [SvgElem.flowText firstLineY fontSize color fontFamily fontWeight fontStyle
    textDecoration
    (lines.enum.map (fun li => (if li.1 = 0 then (0 : ℚ) else lineHeight, escapeXml li.2)))]

/-- `generateIconSVG` (renderer.ts lines 265-280): parse the glyph markup;
with no svg root the result is empty; otherwise position and size the root
element, force its stroke color, and embed it with its inner markup. -/
def generateIconSVG (parseSvg : SvgParser) (svgString : String) (size : ℚ)
    (color : String) (iconSize : ℚ) : List SvgElem :=
  match parseSvg svgString with
  | none => []
  | some iconSvg =>
      let offset := (size - iconSize) / 2
      let a := iconSvg.attrs
      let a := setAttr a "x" (.num offset)
      let a := setAttr a "y" (.num offset)
      let a := setAttr a "width" (.num iconSize)
      let a := setAttr a "height" (.num iconSize)
      let a := setAttr a "stroke" (.str color)
      [SvgElem.iconElem a iconSvg.inner]

/-- `generateForegroundSVG` (renderer.ts lines 84-245). The `if (iconSvg)`
truthiness test of line 239 coincides with the some-case of `getIconSvg`,
which never returns an empty string. -/
def generateForegroundSVG (iconsCache : IconsCache) (parseSvg : SvgParser)
    (measure : MeasureOracle) (cfg : IconConfig) (size : ℚ) : List SvgElem :=
  let fg := cfg.foreground
  let percentageSize := jsOrQ fg.size 80 / 100
  let maxSize := size * percentageSize
  if fg.type = .text ∨ fg.type = .emoji ∨ fg.type = .emojiMono then
    let fontFamily :=
      if fg.type = .emojiMono then "\"Noto Emoji\", \"Segoe UI Symbol\", \"Noto Color Emoji\""
      else if fg.type = .emoji then "\"Noto Color Emoji\", \"Segoe UI Emoji\""
      else jsOrStr fg.fontFamily "sans-serif"
    let textContent :=
      if fg.type = .emoji ∨ fg.type = .emojiMono then jsOrStr fg.emoji "🎨"
      else jsOrStr fg.text " "
    let lines := splitLines textContent
    let monospaceMode := fg.monospace.getD false && (fg.type == ForegroundType.text)
    let fsCw :=
      if monospaceMode then monoLayout maxSize lines
      else (normalFontSize measure maxSize fontFamily lines, 0)
    let fontSize := fsCw.1
    let charWidth := fsCw.2
    let isEmoji := fg.type = ForegroundType.emoji ∨ fg.type = ForegroundType.emojiMono
    if monospaceMode = true ∧ charWidth > 0 then
      monoTextElems size charWidth fontSize fg.color fontFamily
        (jsOrStr fg.fontWeight "normal") (jsOrStr fg.fontStyle "normal")
        (jsOrStr fg.textDecoration "none") lines
    else if isEmoji then
      emojiElems size maxSize fontSize fontFamily fg.color lines
    else
      flowTextElems size fontSize fg.color fontFamily
        (jsOrStr fg.fontWeight "normal") (jsOrStr fg.fontStyle "normal")
        (jsOrStr fg.textDecoration "none") lines
  else if fg.type = .icon ∧ truthyStr fg.iconName then
    match getIconSvg iconsCache (fg.iconName.getD "") with
    | some iconSvg => generateIconSVG parseSvg iconSvg size fg.color maxSize
    | none => []
  else []

/-- The gradient definitions block of `generateSVG` (renderer.ts lines
26-49): emitted only when the kind is the matching gradient and the second
stop color is truthy. -/
def bgDefs (bg : Background) : List SvgElem :=
  if bg.type = .linearGradient ∧ truthyStr bg.gradientColor then
    [.linearGradientDef (jsOrQ bg.gradientAngle 0) bg.color (bg.gradientColor.getD "")]
  else if bg.type = .radialGradient ∧ truthyStr bg.gradientColor then
    [.radialGradientDef (jsOrQ bg.gradientSize 50) bg.color (bg.gradientColor.getD "")]
  else []

/-- The background shape of `generateSVG` (renderer.ts lines 52-68): one full
canvas rectangle for every non-transparent kind. -/
def bgShapes (bg : Background) (size : ℚ) : List SvgElem :=
  if bg.type ≠ .transparent then
    [.rect size size 0 0 (bgRx bg size) (backgroundFill bg) (computedAlpha bg)]
  else []

/-- The transparency workaround of `generateSVG` (renderer.ts lines 70-75):
two near-invisible 1 by 1 rectangles at opposite corners whenever the
computed alpha is at most 0.01. -/
def markerRects (alpha size : ℚ) : List SvgElem :=
  if alpha ≤ 1 / 100 then
    [.rect 1 1 size size 0 "#000000" (1 / 100),
     .rect 1 1 0 0 0 "#000000" (1 / 100)]
  else []

/-- `generateSVG` (renderer.ts lines 20-82): gradient definitions block,
background shape, transparency workaround markers, then the foreground. -/
def generateSVG (iconsCache : IconsCache) (parseSvg : SvgParser)
    (measure : MeasureOracle) (cfg : IconConfig) (size : ℚ) : List SvgElem :=
  bgDefs cfg.background ++ bgShapes cfg.background size ++
    markerRects (computedAlpha cfg.background) size ++
    generateForegroundSVG iconsCache parseSvg measure cfg size

/-- The linear-gradient stop endpoint geometry (renderer.ts lines 27-32), the
`x1 y1 x2 y2` percentages written into the `linearGradientDef` block for the
recorded angle: the canvas center offset by half the span along the direction
vector of the angle, the second endpoint mirrored through the center. -/
noncomputable def linearGradientCoords (angleDeg : ℝ) : (ℝ × ℝ) × (ℝ × ℝ) :=
  let rad := angleDeg * (Real.pi / 180)
  ((50 + Real.cos rad * 50, 50 + Real.sin rad * 50),
   (50 - Real.cos rad * 50, 50 - Real.sin rad * 50))

/-- The monospace grid positions as the spec states them: each character of a
line of length `len` at
`x = canvasSize/2 + (charIndex − len/2 + 0.5) × charWidth`, vertical
placement as in the flowed case. Stated from the spec wording, to be compared
with `monoTextElems`. -/
def monoGridSpec (size charWidth fontSize : ℚ)
    (color fontFamily fontWeight fontStyle textDecoration : String)
    (lines : List String) : List SvgElem :=
  lines.enum.flatMap (fun li =>
    li.2.data.enum.map (fun ci =>
      SvgElem.charText
        (size / 2 + ((ci.1 : ℚ) - (li.2.length : ℚ) / 2 + 1 / 2) * charWidth)
        ((size - (lines.length : ℚ) * fontSize) / 2 + fontSize * (85 / 100) + (li.1 : ℚ) * fontSize)
        fontSize color fontFamily fontWeight fontStyle textDecoration
        (escapeXml (String.mk [ci.2]))))

/-- Per-character expansion into the five standard character references, the
form the spec demands of the escaping step. -/
def escChar (c : Char) : List Char :=
  if c = '&' then "&amp;".data
  else if c = '<' then "&lt;".data
  else if c = '>' then "&gt;".data
  else if c = '"' then "&quot;".data
  else if c = aposChar then aposRef
  else [c]

/-- The user-supplied literal text contents embedded in an element (glyph
markup and attribute values are not literal text content). -/
def contentStrings : SvgElem → List String
  | .charText _ _ _ _ _ _ _ _ c => [c]
  | .flowText _ _ _ _ _ _ _ spans => spans.map (fun p => p.2)
  | .foreignObject _ _ _ _ _ _ _ _ divs => divs
  | _ => []

/-- Constructor discriminant: background-layer constructors are below 3,
foreground-layer constructors at least 3. -/
def elemKind : SvgElem → ℕ
  | .rect .. => 0
  | .linearGradientDef .. => 1
  | .radialGradientDef .. => 2
  | .charText .. => 3
  | .flowText .. => 4
  | .foreignObject .. => 5
  | .iconElem .. => 6

/-- An empty icon cache, for concrete instantiations. -/
def cacheEmpty : IconsCache := []

/-- A linear measurement oracle reporting ten width units per font unit. -/
def wideOracle : String → ℚ → String → ℚ := fun _ f _ => 10 * f

/-- A linear measurement oracle reporting one character count width unit per
font unit. -/
def lenOracle : String → ℚ → String → ℚ := fun t f _ => (t.length : ℚ) * f

/-- A solid background whose primary color embeds the alpha byte 0x44. -/
def bgSolidHex8 : Background := ⟨.solid, "#11223344", none, none, none, none⟩

/-- A linear gradient whose primary color embeds the alpha byte 0x44. -/
def bgLinHex8 : Background :=
  ⟨.linearGradient, "#11223344", some "#abcdef", none, none, none⟩

/-- A linear gradient with no second stop color. -/
def bgLinNoSecond : Background := ⟨.linearGradient, "#ff0000", none, none, none, none⟩

/-- A transparent background. -/
def bgTransparent : Background := ⟨.transparent, "#000000", none, none, none, none⟩

/-- An icon foreground with no icon name. -/
def fgIconNone : Foreground :=
  ⟨.icon, "#ff0000", none, none, none, none, none, none, none, none, none⟩

/-- A monospace two-line text foreground, the spec example `"AB\nC"`. -/
def fgMonoAB : Foreground :=
  ⟨.text, "#ffffff", some "AB\nC", none, none, none, none, none, none, none, some true⟩

/-- A monospace single-character text foreground. -/
def fgMonoAmp : Foreground :=
  ⟨.text, "#ffffff", some "&", none, none, none, none, none, none, none, some true⟩

/-- An icon foreground naming the `star` glyph. -/
def fgIconStar : Foreground :=
  ⟨.icon, "#ff0000", none, none, some "star", none, none, none, none, none, none⟩

/-- A one-path outline glyph, built by the icons module code exactly as it
builds every tabler outline icon: its root carries fill="none" and
stroke="currentColor". -/
def starGlyph : String := createSvgFromPaths [⟨"path", some "M3 12h18"⟩] false

/-- An icon cache holding only `starGlyph` under the name star. -/
def cacheStar : IconsCache := [("star", starGlyph)]

/-- Solid 8-digit-hex background with an empty icon foreground. -/
def cfgSolidHex8 : IconConfig := ⟨bgSolidHex8, fgIconNone⟩

/-- Linear-gradient 8-digit-hex background with an empty icon foreground. -/
def cfgGradHex8 : IconConfig := ⟨bgLinHex8, fgIconNone⟩

/-- Linear-gradient background missing its second color. -/
def cfgGradNoSecond : IconConfig := ⟨bgLinNoSecond, fgIconNone⟩

/-- Transparent background with an unknown icon name, the spec scenario 3. -/
def cfgTransparentIcon : IconConfig := ⟨bgTransparent, fgIconNone⟩

/-- Transparent background under the monospace `"AB\nC"` example. -/
def cfgMonoAB : IconConfig := ⟨bgTransparent, fgMonoAB⟩

/-- Transparent background under a monospace ampersand. -/
def cfgMonoAmp : IconConfig := ⟨bgTransparent, fgMonoAmp⟩

/-- Solid background with the `star` icon foreground. -/
def cfgIconStar : IconConfig := ⟨bgSolidHex8, fgIconStar⟩

/-! ## Shared lemmas -/

theorem replaceChar_append (t : Char) (rep : List Char) (l1 l2 : List Char) :
    replaceChar t rep (l1 ++ l2) = replaceChar t rep l1 ++ replaceChar t rep l2 := by
  induction l1 with
  | nil => rfl
  | cons c cs ih => by_cases h : c = t <;> simp [replaceChar, h, ih]

theorem escList_append (l1 l2 : List Char) :
    escList (l1 ++ l2) = escList l1 ++ escList l2 := by
  simp [escList, replaceChar_append]

theorem escList_single (c : Char) : escList [c] = escChar c := by
  by_cases h1 : c = '&'
  · subst h1; rfl
  by_cases h2 : c = '<'
  · subst h2; rfl
  by_cases h3 : c = '>'
  · subst h3; rfl
  by_cases h4 : c = '"'
  · subst h4; rfl
  by_cases h5 : c = aposChar
  · subst h5; rfl
  simp [escList, escChar, replaceChar, h1, h2, h3, h4, h5]

theorem escList_flatMap (l : List Char) : escList l = l.flatMap escChar := by
  induction l with
  | nil => rfl
  | cons c cs ih =>
      rw [List.flatMap_cons, ← ih, show c :: cs = [c] ++ cs from rfl,
        escList_append, escList_single]

theorem listFlatMapCongr {α β : Type} {f g : α → List β} (l : List α)
    (h : ∀ a ∈ l, f a = g a) : l.flatMap f = l.flatMap g := by
  induction l with
  | nil => rfl
  | cons x xs ih =>
      rw [List.flatMap_cons, List.flatMap_cons, h x (by simp),
        ih (fun a ha => h a (by simp [ha]))]

theorem splitLinesAux_ne_nil (l acc : List Char) : splitLinesAux l acc ≠ [] := by
  induction l generalizing acc with
  | nil => simp [splitLinesAux]
  | cons c cs ih =>
      by_cases h : c = '\n' <;> simp [splitLinesAux, h, ih]

theorem splitLines_ne_nil (s : String) : splitLines s ≠ [] := by
  simp [splitLines, splitLinesAux_ne_nil]

theorem foldl_fit_le_init (measure : MeasureOracle) (maxSize : ℚ)
    (fontFamily : String) (lines : List String) (a : ℚ) :
    lines.foldl
      (fun fs line =>
        if hasNonWs line then min fs (calculateFontSize measure line maxSize fontFamily)
        else fs) a ≤ a := by
  induction lines generalizing a with
  | nil => simp
  | cons x xs ih =>
      rw [List.foldl_cons]
      refine le_trans (ih _) ?_
      by_cases h : hasNonWs x <;> simp [h]

theorem foldl_fit_le_calc (measure : MeasureOracle) (maxSize : ℚ)
    (fontFamily : String) (lines : List String) (a : ℚ) (line : String)
    (hmem : line ∈ lines) (hnb : hasNonWs line = true) :
    lines.foldl
      (fun fs line =>
        if hasNonWs line then min fs (calculateFontSize measure line maxSize fontFamily)
        else fs) a ≤ calculateFontSize measure line maxSize fontFamily := by
  induction lines generalizing a with
  | nil => cases hmem
  | cons x xs ih =>
      rw [List.foldl_cons]
      rcases List.mem_cons.mp hmem with h | h
      · subst h
        refine le_trans (foldl_fit_le_init measure maxSize fontFamily xs _) ?_
        simp [hnb]
      · exact ih _ h

theorem monoTextElems_kind (size charWidth fontSize : ℚ)
    (color fontFamily fontWeight fontStyle textDecoration : String)
    (lines : List String) :
    ∀ e ∈ monoTextElems size charWidth fontSize color fontFamily fontWeight
      fontStyle textDecoration lines, elemKind e = 3 := by
  intro e he
  simp only [monoTextElems, List.mem_flatMap, List.mem_map] at he
  obtain ⟨li, _, ci, _, rfl⟩ := he
  rfl

theorem generateIconSVG_kind (parseSvg : SvgParser) (svgString : String)
    (size : ℚ) (color : String) (iconSize : ℚ) :
    ∀ e ∈ generateIconSVG parseSvg svgString size color iconSize,
      elemKind e = 6 := by
  intro e he
  simp only [generateIconSVG] at he
  split at he
  · cases he
  · simp only [List.mem_singleton] at he
    subst he
    rfl

theorem fg_kind_ge (iconsCache : IconsCache) (parseSvg : SvgParser)
    (measure : MeasureOracle)
    (cfg : IconConfig) (size : ℚ) :
    ∀ e ∈ generateForegroundSVG iconsCache parseSvg measure cfg size, 3 ≤ elemKind e := by
  intro e he
  simp only [generateForegroundSVG] at he
  repeat' split at he
  all_goals
    first
      | (have h3 := monoTextElems_kind _ _ _ _ _ _ _ _ _ e he; omega)
      | (simp only [emojiElems, List.mem_singleton] at he; subst he; simp [elemKind])
      | (simp only [flowTextElems, List.mem_singleton] at he; subst he; simp [elemKind])
      | (have h6 := generateIconSVG_kind _ _ _ _ _ e he; omega)
      | cases he

theorem mem_svg_of_bgDefs (iconsCache : IconsCache) (parseSvg : SvgParser)
    (measure : MeasureOracle)
    (cfg : IconConfig) (size : ℚ) (e : SvgElem) (h : e ∈ bgDefs cfg.background) :
    e ∈ generateSVG iconsCache parseSvg measure cfg size := by
  simp only [generateSVG, List.mem_append]
  tauto

theorem mem_svg_of_bgShapes (iconsCache : IconsCache) (parseSvg : SvgParser)
    (measure : MeasureOracle)
    (cfg : IconConfig) (size : ℚ) (e : SvgElem)
    (h : e ∈ bgShapes cfg.background size) :
    e ∈ generateSVG iconsCache parseSvg measure cfg size := by
  simp only [generateSVG, List.mem_append]
  tauto

theorem mem_svg_of_markers (iconsCache : IconsCache) (parseSvg : SvgParser)
    (measure : MeasureOracle)
    (cfg : IconConfig) (size : ℚ) (e : SvgElem)
    (h : e ∈ markerRects (computedAlpha cfg.background) size) :
    e ∈ generateSVG iconsCache parseSvg measure cfg size := by
  simp only [generateSVG, List.mem_append]
  tauto

theorem mem_svg_cases (iconsCache : IconsCache) (parseSvg : SvgParser)
    (measure : MeasureOracle)
    (cfg : IconConfig) (size : ℚ) (e : SvgElem)
    (h : e ∈ generateSVG iconsCache parseSvg measure cfg size) :
    e ∈ bgDefs cfg.background ∨ e ∈ bgShapes cfg.background size ∨
    e ∈ markerRects (computedAlpha cfg.background) size ∨
    e ∈ generateForegroundSVG iconsCache parseSvg measure cfg size := by
  simpa [generateSVG, List.mem_append, or_assoc] using h

theorem rect_not_mem_bgDefs (bg : Background) (w h x y rx : ℚ) (f : String) (o : ℚ) :
    SvgElem.rect w h x y rx f o ∉ bgDefs bg := by
  intro hmem
  simp only [bgDefs] at hmem
  repeat' split at hmem
  all_goals simp_all

theorem gradDef_not_mem_bgShapes (bg : Background) (size : ℚ) (e : SvgElem)
    (hk : elemKind e = 1 ∨ elemKind e = 2) : e ∉ bgShapes bg size := by
  intro hmem
  simp only [bgShapes] at hmem
  split at hmem
  · simp only [List.mem_singleton] at hmem
    subst hmem
    simp [elemKind] at hk
  · cases hmem

theorem gradDef_not_mem_markers (alpha size : ℚ) (e : SvgElem)
    (hk : elemKind e = 1 ∨ elemKind e = 2) : e ∉ markerRects alpha size := by
  intro hmem
  simp only [markerRects] at hmem
  split at hmem
  · simp only [List.mem_cons, List.mem_singleton] at hmem
    rcases hmem with h | h | h <;> first | (subst h; simp [elemKind] at hk) | cases h
  · cases hmem

theorem rect_mem_bgShapes_elim (bg : Background) (size : ℚ)
    (w h x y rx : ℚ) (f : String) (o : ℚ)
    (hmem : SvgElem.rect w h x y rx f o ∈ bgShapes bg size) :
    bg.type ≠ .transparent ∧ w = size ∧ h = size ∧ x = 0 ∧ y = 0 ∧
    rx = bgRx bg size ∧ f = backgroundFill bg ∧ o = computedAlpha bg := by
  simp only [bgShapes] at hmem
  split at hmem
  · simp only [List.mem_singleton, SvgElem.rect.injEq] at hmem
    rename_i hnt
    exact ⟨hnt, hmem.1, hmem.2.1, hmem.2.2.1, hmem.2.2.2.1, hmem.2.2.2.2.1,
      hmem.2.2.2.2.2.1, hmem.2.2.2.2.2.2⟩
  · cases hmem

theorem gradient_alpha_one (bg : Background)
    (hk : bg.type = .linearGradient ∨ bg.type = .radialGradient) :
    computedAlpha bg = 1 ∧ backgroundFill bg = "url(#bgGradient)" ∧
    bg.type ≠ .transparent := by
  have hfill : backgroundFill bg = "url(#bgGradient)" := by
    rcases hk with h | h <;> simp [backgroundFill, h, isGradientType]
  have hnt : bg.type ≠ .transparent := by
    rcases hk with h | h <;> simp [h]
  have hno : matchesHex8 "url(#bgGradient)" = false := by decide
  refine ⟨?_, hfill, hnt⟩
  simp [computedAlpha, hnt, hfill, hno]

theorem gradient_bgRect_mem (bg : Background) (size : ℚ)
    (hk : bg.type = .linearGradient ∨ bg.type = .radialGradient) :
    SvgElem.rect size size 0 0 (bgRx bg size) "url(#bgGradient)" 1 ∈ bgShapes bg size := by
  obtain ⟨halpha, hfill, hnt⟩ := gradient_alpha_one bg hk
  have : SvgElem.rect size size 0 0 (bgRx bg size) (backgroundFill bg) (computedAlpha bg)
      ∈ bgShapes bg size := by
    simp [bgShapes, hnt]
  rwa [hfill, halpha] at this

theorem monoTextElems_contents (size charWidth fontSize : ℚ)
    (color fontFamily fontWeight fontStyle textDecoration : String)
    (lines : List String) :
    ∀ e ∈ monoTextElems size charWidth fontSize color fontFamily fontWeight
      fontStyle textDecoration lines, ∀ c ∈ contentStrings e, ∃ t, c = escapeXml t := by
  intro e he c hc
  simp only [monoTextElems, List.mem_flatMap, List.mem_map] at he
  obtain ⟨li, _, ci, _, rfl⟩ := he
  simp only [contentStrings, List.mem_singleton] at hc
  exact ⟨String.mk [ci.2], hc⟩

theorem emojiElems_contents (size maxSize fontSize : ℚ) (fontFamily color : String)
    (lines : List String) :
    ∀ e ∈ emojiElems size maxSize fontSize fontFamily color lines,
      ∀ c ∈ contentStrings e, ∃ t, c = escapeXml t := by
  intro e he c hc
  simp only [emojiElems, List.mem_singleton] at he
  subst he
  simp only [contentStrings, List.mem_map] at hc
  obtain ⟨line, _, rfl⟩ := hc
  exact ⟨line, rfl⟩

theorem flowTextElems_contents (size fontSize : ℚ)
    (color fontFamily fontWeight fontStyle textDecoration : String)
    (lines : List String) :
    ∀ e ∈ flowTextElems size fontSize color fontFamily fontWeight fontStyle
      textDecoration lines, ∀ c ∈ contentStrings e, ∃ t, c = escapeXml t := by
  intro e he c hc
  simp only [flowTextElems, List.mem_singleton] at he
  subst he
  simp only [contentStrings, List.mem_map] at hc
  obtain ⟨p, hp, rfl⟩ := hc
  obtain ⟨li, _, rfl⟩ := hp
  exact ⟨li.2, rfl⟩

theorem generateIconSVG_contents (parseSvg : SvgParser) (svgString : String)
    (size : ℚ) (color : String) (iconSize : ℚ) :
    ∀ e ∈ generateIconSVG parseSvg svgString size color iconSize,
      ∀ c ∈ contentStrings e, ∃ t, c = escapeXml t := by
  intro e he c hc
  simp only [generateIconSVG] at he
  split at he
  · cases he
  · simp only [List.mem_singleton] at he
    subst he
    cases hc

theorem fg_contents (iconsCache : IconsCache) (parseSvg : SvgParser)
    (measure : MeasureOracle)
    (cfg : IconConfig) (size : ℚ) :
    ∀ e ∈ generateForegroundSVG iconsCache parseSvg measure cfg size,
      ∀ c ∈ contentStrings e, ∃ t, c = escapeXml t := by
  intro e he
  simp only [generateForegroundSVG] at he
  repeat' split at he
  all_goals
    first
      | exact monoTextElems_contents _ _ _ _ _ _ _ _ _ e he
      | exact emojiElems_contents _ _ _ _ _ _ e he
      | exact flowTextElems_contents _ _ _ _ _ _ _ _ e he
      | exact generateIconSVG_contents _ _ _ _ _ e he
      | cases he

theorem bg_contents_nil (bg : Background) (alpha size : ℚ) (e : SvgElem)
    (he : e ∈ bgDefs bg ∨ e ∈ bgShapes bg size ∨ e ∈ markerRects alpha size) :
    contentStrings e = [] := by
  rcases he with h | h | h
  · simp only [bgDefs] at h
    repeat' split at h
    all_goals first
      | (simp only [List.mem_singleton] at h; subst h; rfl)
      | cases h
  · simp only [bgShapes] at h
    split at h
    · simp only [List.mem_singleton] at h; subst h; rfl
    · cases h
  · simp only [markerRects] at h
    split at h
    · simp only [List.mem_cons, List.mem_singleton] at h
      rcases h with h | h | h <;> first | (subst h; rfl) | cases h
    · cases h

/-! ## Claim theorems -/

/-- C6: for every linear-gradient angle, the two stop endpoints are the
canvas center offset by the unit vector at that angle scaled into the unit
square of percent coordinates (so they stay within it), symmetric about the
center, with 0 degrees pointing along +x; in particular at 0 degrees the
endpoints are the midpoints of the right and left edges. -/
theorem c6_linear_gradient_geometry (θ : ℝ) :
    ((linearGradientCoords θ).1.1 + (linearGradientCoords θ).2.1) / 2 = 50 ∧
    ((linearGradientCoords θ).1.2 + (linearGradientCoords θ).2.2) / 2 = 50 ∧
    (linearGradientCoords θ).1.1 = 50 + Real.cos (θ * (Real.pi / 180)) * 50 ∧
    (linearGradientCoords θ).1.2 = 50 + Real.sin (θ * (Real.pi / 180)) * 50 ∧
    0 ≤ (linearGradientCoords θ).1.1 ∧ (linearGradientCoords θ).1.1 ≤ 100 ∧
    0 ≤ (linearGradientCoords θ).1.2 ∧ (linearGradientCoords θ).1.2 ≤ 100 ∧
    0 ≤ (linearGradientCoords θ).2.1 ∧ (linearGradientCoords θ).2.1 ≤ 100 ∧
    0 ≤ (linearGradientCoords θ).2.2 ∧ (linearGradientCoords θ).2.2 ≤ 100 ∧
    linearGradientCoords 0 = ((100, 50), (0, 50)) := by
  have hc1 := Real.cos_le_one (θ * (Real.pi / 180))
  have hc2 := Real.neg_one_le_cos (θ * (Real.pi / 180))
  have hs1 := Real.sin_le_one (θ * (Real.pi / 180))
  have hs2 := Real.neg_one_le_sin (θ * (Real.pi / 180))
  refine ⟨by simp only [linearGradientCoords]; ring,
    by simp only [linearGradientCoords]; ring, rfl, rfl,
    by simp only [linearGradientCoords]; linarith,
    by simp only [linearGradientCoords]; linarith,
    by simp only [linearGradientCoords]; linarith,
    by simp only [linearGradientCoords]; linarith,
    by simp only [linearGradientCoords]; linarith,
    by simp only [linearGradientCoords]; linarith,
    by simp only [linearGradientCoords]; linarith,
    by simp only [linearGradientCoords]; linarith, ?_⟩
  simp [linearGradientCoords, Real.cos_zero, Real.sin_zero]
  norm_num

/-- C7 counterexample: with the measurement oracle unavailable,
`calculateFontSize` for the one-character line "A" under maxExtent 100
returns the fixed 65 = 0.65 × 100, not the algebraic solution
100 / (0.6 × 1) of the claimed width model 0.6 × fontSize × charCount. -/
theorem c7_counterexample :
    calculateFontSize none "A" 100 "sans-serif" = 65 ∧
    ¬ calculateFontSize none "A" 100 "sans-serif" = 100 / (6 / 10 * 1) := by
  have h : calculateFontSize none "A" 100 "sans-serif" = 65 := by
    simp only [calculateFontSize]
    norm_num
  refine ⟨h, ?_⟩
  rw [h]
  norm_num

/-- C7 amended: when the measurement oracle is unavailable the engine
returns the fixed fallback font size 0.65 × maxExtent, independent of the
line content and character count, recovering locally without raising an
error (the function is total). -/
theorem c7_fallback_fixed (text : String) (maxSize : ℚ) (fontFamily : String) :
    calculateFontSize none text maxSize fontFamily = maxSize * (65 / 100) := rfl

/-- C4 counterexample: for the solid background with primary color
"#11223344" the emitted background rectangle keeps the full 8-digit value in
its fill attribute; it is not reduced to "#112233". -/
theorem c4_counterexample :
    generateSVG cacheEmpty parseSvgRoot none cfgSolidHex8 512 =
      [SvgElem.rect 512 512 0 0 0 "#11223344" (68 / 255)] ∧
    ("#11223344" : String) ≠ "#112233" := by
  constructor
  · simp [generateSVG, bgDefs, bgShapes, markerRects, computedAlpha,
      backgroundFill, bgRx, jsOrQ, truthyStr, isGradientType,
      generateForegroundSVG, cfgSolidHex8, bgSolidHex8, fgIconNone,
      show matchesHex8 "#11223344" = true from by decide,
      show hexAlphaByte "#11223344" = 68 from by decide]
    all_goals norm_num
  · decide

/-- C4 amended: for every solid background whose primary color ends in 8 hex
digits, the emitted background rectangle has fill-opacity equal to the alpha
byte over 255 (exact in ℚ), and its fill attribute carries the original
color string unchanged, including the embedded alpha digits. -/
theorem c4_solid_alpha (iconsCache : IconsCache) (parseSvg : SvgParser)
    (measure : MeasureOracle)
    (cfg : IconConfig) (size : ℚ)
    (hs : cfg.background.type = .solid)
    (hm : matchesHex8 cfg.background.color = true) :
    computedAlpha cfg.background = (hexAlphaByte cfg.background.color : ℚ) / 255 ∧
    SvgElem.rect size size 0 0 (bgRx cfg.background size) cfg.background.color
      ((hexAlphaByte cfg.background.color : ℚ) / 255) ∈ generateSVG iconsCache parseSvg measure cfg size := by
  have hfill : backgroundFill cfg.background = cfg.background.color := by
    simp [backgroundFill, hs, isGradientType]
  have halpha : computedAlpha cfg.background =
      (hexAlphaByte cfg.background.color : ℚ) / 255 := by
    rw [computedAlpha, hfill]
    rw [hs]
    simp [hm]
  refine ⟨halpha, ?_⟩
  have hnt : cfg.background.type ≠ .transparent := by simp [hs]
  have hmem : SvgElem.rect size size 0 0 (bgRx cfg.background size)
      (backgroundFill cfg.background) (computedAlpha cfg.background)
      ∈ bgShapes cfg.background size := by
    simp [bgShapes, hnt]
  rw [hfill, halpha] at hmem
  exact mem_svg_of_bgShapes iconsCache parseSvg measure cfg size _ hmem

/-- C4 witness: the amended C4 theorem evaluated on the concrete solid
configuration with color "#11223344" at size 512. -/
theorem c4_solid_alpha_witness :
    matchesHex8 "#11223344" = true ∧ hexAlphaByte "#11223344" = 68 ∧
    computedAlpha bgSolidHex8 = (68 : ℚ) / 255 ∧
    SvgElem.rect 512 512 0 0 0 "#11223344" ((68 : ℚ) / 255)
      ∈ generateSVG cacheEmpty parseSvgRoot none cfgSolidHex8 512 := by
  have h := c4_solid_alpha cacheEmpty parseSvgRoot none cfgSolidHex8 512 rfl (by decide)
  have hb : ((hexAlphaByte cfgSolidHex8.background.color : ℚ)) = 68 := by
    norm_num [show hexAlphaByte cfgSolidHex8.background.color = 68 from by decide]
  rw [hb] at h
  rw [show bgRx cfgSolidHex8.background 512 = 0 from by
    norm_num [bgRx, jsOrQ, cfgSolidHex8, bgSolidHex8]] at h
  exact ⟨by decide, by decide, h.1, h.2⟩

/-- C5 counterexample: for the linear-gradient background with primary color
"#11223344" the emitted gradient-filled rectangle has fill-opacity 1, not
the primary-color alpha 68/255: the 8-hex-digit check is applied to the
"url(#bgGradient)" fill string, which never matches. -/
theorem c5_counterexample :
    generateSVG cacheEmpty parseSvgRoot none cfgGradHex8 512 =
      [SvgElem.linearGradientDef 0 "#11223344" "#abcdef",
       SvgElem.rect 512 512 0 0 0 "url(#bgGradient)" 1] ∧
    ¬ ((1 : ℚ) = (hexAlphaByte "#11223344" : ℚ) / 255) := by
  constructor
  · simp [generateSVG, bgDefs, bgShapes, markerRects, computedAlpha,
      backgroundFill, bgRx, jsOrQ, truthyStr, isGradientType,
      generateForegroundSVG, cfgGradHex8, bgLinHex8, fgIconNone,
      show matchesHex8 "url(#bgGradient)" = false from by decide,
      show "#abcdef".isEmpty = false from by decide]
    all_goals norm_num
  · norm_num [show hexAlphaByte "#11223344" = 68 from by decide]

/-- C5 amended: for every gradient background the emitted gradient-filled
rectangle has fill-opacity 1 regardless of any alpha embedded in the primary
color, while the two gradient stops keep the specified primary and secondary
colors. -/
theorem c5_gradient_opacity (iconsCache : IconsCache) (parseSvg : SvgParser)
    (measure : MeasureOracle)
    (cfg : IconConfig) (size : ℚ)
    (hk : cfg.background.type = .linearGradient ∨ cfg.background.type = .radialGradient) :
    computedAlpha cfg.background = 1 ∧
    SvgElem.rect size size 0 0 (bgRx cfg.background size) "url(#bgGradient)" 1
      ∈ generateSVG iconsCache parseSvg measure cfg size ∧
    (cfg.background.type = .linearGradient → truthyStr cfg.background.gradientColor = true →
      SvgElem.linearGradientDef (jsOrQ cfg.background.gradientAngle 0)
        cfg.background.color (cfg.background.gradientColor.getD "")
        ∈ generateSVG iconsCache parseSvg measure cfg size) ∧
    (cfg.background.type = .radialGradient → truthyStr cfg.background.gradientColor = true →
      SvgElem.radialGradientDef (jsOrQ cfg.background.gradientSize 50)
        cfg.background.color (cfg.background.gradientColor.getD "")
        ∈ generateSVG iconsCache parseSvg measure cfg size) := by
  obtain ⟨halpha, hfill, hnt⟩ := gradient_alpha_one cfg.background hk
  refine ⟨halpha, ?_, ?_, ?_⟩
  · exact mem_svg_of_bgShapes iconsCache parseSvg measure cfg size _ (gradient_bgRect_mem _ _ hk)
  · intro hlin htr
    refine mem_svg_of_bgDefs iconsCache parseSvg measure cfg size _ ?_
    simp [bgDefs, hlin, htr]
  · intro hrad htr
    refine mem_svg_of_bgDefs iconsCache parseSvg measure cfg size _ ?_
    have : cfg.background.type ≠ .linearGradient := by simp [hrad]
    simp [bgDefs, hrad, htr, this]

/-- C5 witness: the amended C5 theorem evaluated on the concrete
linear-gradient configuration with primary color "#11223344". -/
theorem c5_gradient_opacity_witness :
    computedAlpha bgLinHex8 = 1 ∧
    SvgElem.rect 512 512 0 0 0 "url(#bgGradient)" 1
      ∈ generateSVG cacheEmpty parseSvgRoot none cfgGradHex8 512 ∧
    SvgElem.linearGradientDef 0 "#11223344" "#abcdef"
      ∈ generateSVG cacheEmpty parseSvgRoot none cfgGradHex8 512 := by
  have h := c5_gradient_opacity cacheEmpty parseSvgRoot none cfgGradHex8 512 (Or.inl rfl)
  refine ⟨h.1, ?_, ?_⟩
  · have h2 := h.2.1
    rwa [show bgRx cfgGradHex8.background 512 = 0 from by
      norm_num [bgRx, jsOrQ, cfgGradHex8, bgLinHex8]] at h2
  · exact h.2.2.1 rfl (by decide)

/-- C10: for every gradient background whose second stop color is unset, no
gradient definitions block is emitted, yet the background rectangle still
references url(#bgGradient) as its fill, with fill-opacity 1. -/
theorem c10_gradient_missing_second (iconsCache : IconsCache) (parseSvg : SvgParser)
    (measure : MeasureOracle)
    (cfg : IconConfig) (size : ℚ)
    (hk : cfg.background.type = .linearGradient ∨ cfg.background.type = .radialGradient)
    (hg : truthyStr cfg.background.gradientColor = false) :
    SvgElem.rect size size 0 0 (bgRx cfg.background size) "url(#bgGradient)" 1
      ∈ generateSVG iconsCache parseSvg measure cfg size ∧
    computedAlpha cfg.background = 1 ∧
    (∀ a s1 s2, SvgElem.linearGradientDef a s1 s2 ∉ generateSVG iconsCache parseSvg measure cfg size) ∧
    (∀ r s1 s2, SvgElem.radialGradientDef r s1 s2 ∉ generateSVG iconsCache parseSvg measure cfg size) := by
  obtain ⟨halpha, hfill, hnt⟩ := gradient_alpha_one cfg.background hk
  have hdn : bgDefs cfg.background = [] := by
    simp [bgDefs, hg]
  refine ⟨mem_svg_of_bgShapes iconsCache parseSvg measure cfg size _ (gradient_bgRect_mem _ _ hk),
    halpha, ?_, ?_⟩
  · intro a s1 s2 hmem
    rcases mem_svg_cases _ _ _ _ _ _ hmem with h | h | h | h
    · rw [hdn] at h; cases h
    · exact gradDef_not_mem_bgShapes _ _ (SvgElem.linearGradientDef a s1 s2) (Or.inl rfl) h
    · exact gradDef_not_mem_markers _ _ (SvgElem.linearGradientDef a s1 s2) (Or.inl rfl) h
    · have := fg_kind_ge _ _ _ _ _ _ h
      simp [elemKind] at this
  · intro r s1 s2 hmem
    rcases mem_svg_cases _ _ _ _ _ _ hmem with h | h | h | h
    · rw [hdn] at h; cases h
    · exact gradDef_not_mem_bgShapes _ _ (SvgElem.radialGradientDef r s1 s2) (Or.inr rfl) h
    · exact gradDef_not_mem_markers _ _ (SvgElem.radialGradientDef r s1 s2) (Or.inr rfl) h
    · have := fg_kind_ge _ _ _ _ _ _ h
      simp [elemKind] at this

/-- C10 witness: the C10 theorem evaluated on a concrete linear-gradient
configuration with no second stop color at size 512. -/
theorem c10_gradient_missing_second_witness :
    SvgElem.rect 512 512 0 0 0 "url(#bgGradient)" 1
      ∈ generateSVG cacheEmpty parseSvgRoot none cfgGradNoSecond 512 ∧
    computedAlpha bgLinNoSecond = 1 ∧
    SvgElem.linearGradientDef 0 "#ff0000" "#abcdef"
      ∉ generateSVG cacheEmpty parseSvgRoot none cfgGradNoSecond 512 := by
  have h := c10_gradient_missing_second cacheEmpty parseSvgRoot none cfgGradNoSecond 512
    (Or.inl rfl) (by decide)
  refine ⟨?_, h.2.1, h.2.2.1 0 "#ff0000" "#abcdef"⟩
  have h1 := h.1
  rwa [show bgRx cfgGradNoSecond.background 512 = 0 from by
    norm_num [bgRx, jsOrQ, cfgGradNoSecond, bgLinNoSecond]] at h1

/-- C3: for every configuration and target size, the assembled document
contains the two 1 by 1 near-invisible marker rectangles at the two opposite
corners exactly when the computed background alpha is at most 0.01; for the
transparent kind the alpha is 0 and the only rectangles in the document are
the two markers (no filled background shape is emitted). -/
theorem c3_markers_iff_alpha (iconsCache : IconsCache) (parseSvg : SvgParser)
    (measure : MeasureOracle)
    (cfg : IconConfig) (size : ℚ) :
    ((SvgElem.rect 1 1 size size 0 "#000000" (1 / 100) ∈ generateSVG iconsCache parseSvg measure cfg size ∧
      SvgElem.rect 1 1 0 0 0 "#000000" (1 / 100) ∈ generateSVG iconsCache parseSvg measure cfg size) ↔
      computedAlpha cfg.background ≤ 1 / 100) ∧
    (cfg.background.type = .transparent →
      computedAlpha cfg.background = 0 ∧
      ∀ w h x y rx f o, SvgElem.rect w h x y rx f o ∈ generateSVG iconsCache parseSvg measure cfg size →
        SvgElem.rect w h x y rx f o = SvgElem.rect 1 1 size size 0 "#000000" (1 / 100) ∨
        SvgElem.rect w h x y rx f o = SvgElem.rect 1 1 0 0 0 "#000000" (1 / 100)) := by
  constructor
  · constructor
    · rintro ⟨-, h2⟩
      by_contra hgt
      rcases mem_svg_cases _ _ _ _ _ _ h2 with h | h | h | h
      · exact rect_not_mem_bgDefs _ _ _ _ _ _ _ _ h
      · obtain ⟨-, -, -, -, -, -, -, ho⟩ := rect_mem_bgShapes_elim _ _ _ _ _ _ _ _ _ h
        exact hgt (le_of_eq ho.symm)
      · simp only [markerRects] at h
        split at h
        · exact hgt (by assumption)
        · cases h
      · have := fg_kind_ge _ _ _ _ _ _ h
        simp [elemKind] at this
    · intro hle
      have hm1 : SvgElem.rect 1 1 size size 0 "#000000" (1 / 100)
          ∈ markerRects (computedAlpha cfg.background) size := by
        simp only [markerRects]
        rw [if_pos hle]
        simp
      have hm2 : SvgElem.rect 1 1 0 0 0 "#000000" (1 / 100)
          ∈ markerRects (computedAlpha cfg.background) size := by
        simp only [markerRects]
        rw [if_pos hle]
        simp
      exact ⟨mem_svg_of_markers _ _ _ _ _ _ hm1, mem_svg_of_markers _ _ _ _ _ _ hm2⟩
  · intro htr
    have ha : computedAlpha cfg.background = 0 := by
      simp [computedAlpha, htr]
    refine ⟨ha, ?_⟩
    intro w h x y rx f o hmem
    rcases mem_svg_cases _ _ _ _ _ _ hmem with hh | hh | hh | hh
    · exact absurd hh (rect_not_mem_bgDefs _ _ _ _ _ _ _ _)
    · obtain ⟨hnt, -⟩ := rect_mem_bgShapes_elim _ _ _ _ _ _ _ _ _ hh
      exact absurd htr hnt
    · simp only [markerRects] at hh
      split at hh
      · simp only [List.mem_cons, List.mem_singleton] at hh
        rcases hh with hh | hh | hh
        · exact Or.inl hh
        · exact Or.inr hh
        · cases hh
      · cases hh
    · have := fg_kind_ge _ _ _ _ _ _ hh
      simp [elemKind] at this

/-- C3 witness: the C3 theorem evaluated on the transparent background with
an unknown icon name at size 512 (spec example scenario 3). -/
theorem c3_markers_iff_alpha_witness :
    (SvgElem.rect 1 1 512 512 0 "#000000" (1 / 100)
      ∈ generateSVG cacheEmpty parseSvgRoot none cfgTransparentIcon 512 ∧
     SvgElem.rect 1 1 0 0 0 "#000000" (1 / 100)
      ∈ generateSVG cacheEmpty parseSvgRoot none cfgTransparentIcon 512) ∧
    computedAlpha bgTransparent = 0 := by
  have h := c3_markers_iff_alpha cacheEmpty parseSvgRoot none cfgTransparentIcon 512
  have ha := (h.2 rfl).1
  refine ⟨h.1.mpr ?_, ha⟩
  rw [ha]
  norm_num

/-- The per-character emission of the source equals the spec grid formula:
the positions differ only by ring rearrangement. -/
theorem monoTextElems_eq_spec (size charWidth fontSize : ℚ)
    (color ff fw fsty td : String) (lines : List String) :
    monoTextElems size charWidth fontSize color ff fw fsty td lines =
    monoGridSpec size charWidth fontSize color ff fw fsty td lines := by
  simp only [monoTextElems, monoGridSpec]
  refine listFlatMapCongr _ ?_
  rintro ⟨i, line⟩ -
  refine List.map_congr_left ?_
  rintro ⟨j, ch⟩ -
  congr 1
  ring

/-- C1: for every monospace text configuration whose longest line length L
is positive, the engine computes charWidth = maxExtent/L and
fontSize = min(maxExtent/lineCount, charWidth), and the emitted foreground is
exactly the grid of per-character text elements with each character of a line
of length len at x = canvasSize/2 + (charIndex − len/2 + 0.5) × charWidth
(`monoGridSpec`); the "AB\nC" instance with maxExtent 100 is the witness. -/
theorem c1_monospace_grid (iconsCache : IconsCache) (parseSvg : SvgParser)
    (measure : MeasureOracle)
    (cfg : IconConfig) (size maxSize charWidth fontSize : ℚ) (lines : List String)
    (color fontFamily fontWeight fontStyle textDecoration : String)
    (ht : cfg.foreground.type = .text)
    (hmono : cfg.foreground.monospace = some true)
    (hms : maxSize = size * (jsOrQ cfg.foreground.size 80 / 100))
    (hlines : lines = splitLines (jsOrStr cfg.foreground.text " "))
    (hL : 0 < longestLen lines)
    (hpos : 0 < maxSize)
    (hcw : charWidth = maxSize / (longestLen lines : ℚ))
    (hfs : fontSize = min (maxSize / (lines.length : ℚ)) charWidth)
    (hcolor : color = cfg.foreground.color)
    (hff : fontFamily = jsOrStr cfg.foreground.fontFamily "sans-serif")
    (hfw : fontWeight = jsOrStr cfg.foreground.fontWeight "normal")
    (hfst : fontStyle = jsOrStr cfg.foreground.fontStyle "normal")
    (htd : textDecoration = jsOrStr cfg.foreground.textDecoration "none") :
    monoLayout maxSize lines = (fontSize, charWidth) ∧
    generateForegroundSVG iconsCache parseSvg measure cfg size =
      monoGridSpec size charWidth fontSize color fontFamily fontWeight fontStyle
        textDecoration lines := by
  subst hms hlines hcolor hff hfw hfst htd hcw hfs
  have hlayout : monoLayout (size * (jsOrQ cfg.foreground.size 80 / 100))
      (splitLines (jsOrStr cfg.foreground.text " ")) =
      (min (size * (jsOrQ cfg.foreground.size 80 / 100) / ((splitLines (jsOrStr cfg.foreground.text " ")).length : ℚ))
           (size * (jsOrQ cfg.foreground.size 80 / 100) / (longestLen (splitLines (jsOrStr cfg.foreground.text " ")) : ℚ)),
       size * (jsOrQ cfg.foreground.size 80 / 100) / (longestLen (splitLines (jsOrStr cfg.foreground.text " ")) : ℚ)) := by
    simp only [monoLayout]
    rw [if_pos hL]
  refine ⟨hlayout, ?_⟩
  have hcwpos : (0:ℚ) < size * (jsOrQ cfg.foreground.size 80 / 100) /
      (longestLen (splitLines (jsOrStr cfg.foreground.text " ")) : ℚ) :=
    div_pos hpos (by exact_mod_cast hL)
  have hmm : (cfg.foreground.monospace.getD false && (cfg.foreground.type == ForegroundType.text)) = true := by
    rw [hmono, ht]
    rfl
  simp only [generateForegroundSVG, ht, hmm]
  simp [hlayout, hcwpos, monoTextElems_eq_spec, ht, hmono]


/-- C1 witness: the C1 theorem evaluated on monospace text "AB\nC" at size
125 (maxExtent 100): charWidth = 50 and fontSize = min(100/2, 50) = 50. -/
theorem c1_monospace_grid_witness :
    monoLayout 100 (splitLines "AB\nC") = (50, 50) ∧
    generateForegroundSVG cacheEmpty parseSvgRoot none cfgMonoAB 125 =
      monoGridSpec 125 50 50 "#ffffff" "sans-serif" "normal" "normal" "none"
        (splitLines "AB\nC") := by
  exact c1_monospace_grid cacheEmpty parseSvgRoot none cfgMonoAB 125 100 50 50 (splitLines "AB\nC")
    "#ffffff" "sans-serif" "normal" "normal" "none" rfl rfl
    (by norm_num [jsOrQ, cfgMonoAB, fgMonoAB])
    (by decide) (by decide) (by norm_num)
    (by norm_num [show longestLen (splitLines "AB\nC") = 2 from by decide])
    (by norm_num [show longestLen (splitLines "AB\nC") = 2 from by decide,
                  show (splitLines "AB\nC").length = 2 from by decide])
    rfl rfl rfl rfl rfl

/-- C2 counterexample: the claim fails on the code in two ways. For the
monospace line "A" with maxExtent 100 the engine chooses font size 100, but
the linear oracle `wideOracle` (10 width units per font unit) measures that
line at width 1000 > 100, because the monospace branch never consults the
oracle. And for the all-blank monospace text "\n\n" (3 empty lines,
longest length 0) the engine falls back to fontSize = maxExtent = 100, so
lineCount × fontSize = 300 > 100 = maxExtent. -/
theorem c2_counterexample :
    (monoLayout 100 (splitLines "A")).1 = 100 ∧
    wideOracle "A" ((monoLayout 100 (splitLines "A")).1) "monospace" = 1000 ∧
    ¬ (wideOracle "A" ((monoLayout 100 (splitLines "A")).1) "monospace" ≤ 100) ∧
    (splitLines "\n\n").length = 3 ∧
    (monoLayout 100 (splitLines "\n\n")).1 = 100 ∧
    ¬ (((splitLines "\n\n").length : ℚ) * (monoLayout 100 (splitLines "\n\n")).1 ≤ 100) := by
  have h1 : (monoLayout 100 (splitLines "A")).1 = 100 := by
    simp [monoLayout, show longestLen (splitLines "A") = 1 from by decide,
      show (splitLines "A").length = 1 from by decide]
  have h2 : (monoLayout 100 (splitLines "\n\n")).1 = 100 := by
    simp [monoLayout, show longestLen (splitLines "\n\n") = 0 from by decide]
  refine ⟨h1, ?_, ?_, by decide, h2, ?_⟩
  · rw [h1]; norm_num [wideOracle]
  · rw [h1]; norm_num [wideOracle]
  · rw [h2, show (splitLines "\n\n").length = 3 from by decide]; norm_num

/-- C2 amended: in normal (non-monospace) mode, with the oracle present and
linear with nonnegative slope, lineCount × fontSize ≤ maxExtent and the
measured width of every non-blank line at the chosen font size is at most
maxExtent; in monospace mode the same height bound holds provided some line
is nonempty, and the grid width charWidth × longestLineLength never exceeds
maxExtent (the oracle-measured width is not bounded there, and the height
bound can fail when every line is empty). -/
theorem c2_fontsize_bounds (m : String → ℚ → String → ℚ)
    (slope : String → String → ℚ) (maxSize : ℚ) (fontFamily : String)
    (lines : List String)
    (hlin : ∀ t f fam, m t f fam = slope t fam * f)
    (hslope : ∀ t fam, 0 ≤ slope t fam)
    (hms : 0 ≤ maxSize) (hne : lines ≠ []) :
    (lines.length : ℚ) * normalFontSize (some m) maxSize fontFamily lines ≤ maxSize ∧
    (∀ line ∈ lines, hasNonWs line = true →
      m line (normalFontSize (some m) maxSize fontFamily lines) fontFamily ≤ maxSize) ∧
    (0 < longestLen lines → (lines.length : ℚ) * (monoLayout maxSize lines).1 ≤ maxSize) ∧
    (monoLayout maxSize lines).2 * (longestLen lines : ℚ) ≤ maxSize := by
  have hn : (0 : ℚ) < (lines.length : ℚ) := by
    exact_mod_cast List.length_pos.mpr hne
  have hheight : ∀ fs : ℚ, fs ≤ maxSize / (lines.length : ℚ) →
      (lines.length : ℚ) * fs ≤ maxSize := by
    intro fs hfs
    calc (lines.length : ℚ) * fs ≤ (lines.length : ℚ) * (maxSize / (lines.length : ℚ)) :=
          mul_le_mul_of_nonneg_left hfs (le_of_lt hn)
      _ = maxSize := mul_div_cancel₀ _ (ne_of_gt hn)
  refine ⟨?_, ?_, ?_, ?_⟩
  · refine hheight _ ?_
    simp only [normalFontSize]
    exact min_le_right _ _
  · intro line hmem hnb
    have hfold := foldl_fit_le_calc (some m) maxSize fontFamily lines maxSize line hmem hnb
    have hfs_le : normalFontSize (some m) maxSize fontFamily lines ≤
        calculateFontSize (some m) line maxSize fontFamily := by
      simp only [normalFontSize]
      exact le_trans (min_le_left _ _) hfold
    have hcand : slope line fontFamily *
        calculateFontSize (some m) line maxSize fontFamily ≤ maxSize := by
      simp only [calculateFontSize]
      rw [hlin]
      split
      · rename_i hgt
        have hw : (0 : ℚ) < slope line fontFamily * maxSize := lt_of_le_of_lt hms hgt
        have heq : slope line fontFamily *
            (maxSize / (slope line fontFamily * maxSize) * maxSize) = maxSize := by
          field_simp
          ring
        rw [heq]
      · rename_i hle
        push_neg at hle
        exact hle
    rw [hlin]
    calc slope line fontFamily * normalFontSize (some m) maxSize fontFamily lines
        ≤ slope line fontFamily * calculateFontSize (some m) line maxSize fontFamily :=
          mul_le_mul_of_nonneg_left hfs_le (hslope _ _)
      _ ≤ maxSize := hcand
  · intro hL
    refine hheight _ ?_
    simp only [monoLayout]
    rw [if_pos hL]
    exact min_le_left _ _
  · by_cases hL : 0 < longestLen lines
    · simp only [monoLayout]
      rw [if_pos hL]
      have hLne : ((longestLen lines : ℚ)) ≠ 0 := by
        exact_mod_cast Nat.pos_iff_ne_zero.mp hL
      rw [div_mul_cancel₀ _ hLne]
    · simp only [monoLayout]
      rw [if_neg hL]
      simpa using hms

/-- C2 witness: the amended C2 theorem evaluated with the character-count
oracle on the two-line text "Hello\nWorld!" at maxExtent 100. -/
theorem c2_fontsize_bounds_witness :
    (2 : ℚ) * normalFontSize (some lenOracle) 100 "sans-serif" (splitLines "Hello\nWorld!") ≤ 100 ∧
    lenOracle "Hello"
      (normalFontSize (some lenOracle) 100 "sans-serif" (splitLines "Hello\nWorld!"))
      "sans-serif" ≤ 100 := by
  have h := c2_fontsize_bounds lenOracle (fun t _ => (t.length : ℚ)) 100 "sans-serif"
    (splitLines "Hello\nWorld!") (fun t f fam => rfl) (fun t fam => by positivity)
    (by norm_num) (by decide)
  constructor
  · have h1 := h.1
    rwa [show ((splitLines "Hello\nWorld!").length : ℚ) = 2 by
      norm_num [show (splitLines "Hello\nWorld!").length = 2 from by decide]] at h1
  · exact h.2.1 "Hello" (by decide) (by decide)

theorem lookupAttr_setAttr_self (a : List (String × AttrVal)) (k : String) (v : AttrVal) :
    lookupAttr (setAttr a k v) k = some v := by
  induction a with
  | nil => simp [setAttr, lookupAttr]
  | cons p rest ih =>
      obtain ⟨k0, v0⟩ := p
      by_cases h : k0 = k
      · simp [setAttr, h, lookupAttr]
      · simp [setAttr, h, lookupAttr, ih]

theorem lookupAttr_setAttr_ne (a : List (String × AttrVal)) (k k2 : String) (v : AttrVal)
    (h : k2 ≠ k) : lookupAttr (setAttr a k v) k2 = lookupAttr a k2 := by
  induction a with
  | nil => simp [setAttr, lookupAttr, Ne.symm h]
  | cons p rest ih =>
      obtain ⟨k0, v0⟩ := p
      by_cases h0 : k0 = k
      · subst h0
        simp [setAttr, lookupAttr, Ne.symm h]
      · simp only [setAttr, if_neg h0, lookupAttr]
        by_cases h2 : k0 = k2 <;> simp [h2, ih]

/-- C8 amended: for every icon cache, parser, and icon foreground: an unset
icon name, an absent (or empty, hence falsy) cache entry, or glyph markup
with no parseable svg root all yield the empty foreground fragment with no
error; a found and parsed glyph root is embedded with
x = y = (canvasSize − maxExtent)/2, width = height = maxExtent, and its
stroke color attribute forced to the configured foreground color — its fill
attribute, however, is left as authored, not forced. -/
theorem c8_icon_embedding (iconsCache : IconsCache) (parseSvg : SvgParser)
    (measure : MeasureOracle) (cfg : IconConfig) (size maxSize : ℚ)
    (ht : cfg.foreground.type = .icon)
    (hms : maxSize = size * (jsOrQ cfg.foreground.size 80 / 100)) :
    (truthyStr cfg.foreground.iconName = false →
      generateForegroundSVG iconsCache parseSvg measure cfg size = []) ∧
    (getIconSvg iconsCache (cfg.foreground.iconName.getD "") = none →
      generateForegroundSVG iconsCache parseSvg measure cfg size = []) ∧
    (∀ markup, truthyStr cfg.foreground.iconName = true →
      getIconSvg iconsCache (cfg.foreground.iconName.getD "") = some markup →
      parseSvg markup = none →
      generateForegroundSVG iconsCache parseSvg measure cfg size = []) ∧
    (∀ markup root, truthyStr cfg.foreground.iconName = true →
      getIconSvg iconsCache (cfg.foreground.iconName.getD "") = some markup →
      parseSvg markup = some root →
      ∃ a, generateForegroundSVG iconsCache parseSvg measure cfg size =
          [SvgElem.iconElem a root.inner] ∧
        lookupAttr a "x" = some (.num ((size - maxSize) / 2)) ∧
        lookupAttr a "y" = some (.num ((size - maxSize) / 2)) ∧
        lookupAttr a "width" = some (.num maxSize) ∧
        lookupAttr a "height" = some (.num maxSize) ∧
        lookupAttr a "stroke" = some (.str cfg.foreground.color)) := by
  subst hms
  have hni : ¬(cfg.foreground.type = ForegroundType.text ∨
      cfg.foreground.type = ForegroundType.emoji ∨
      cfg.foreground.type = ForegroundType.emojiMono) := by
    rw [ht]; simp
  refine ⟨?_, ?_, ?_, ?_⟩
  · intro htr
    simp [generateForegroundSVG, hni, ht, htr]
  · intro hgs
    by_cases htr : truthyStr cfg.foreground.iconName = true
    · simp [generateForegroundSVG, hni, ht, htr, hgs]
    · simp [generateForegroundSVG, hni, ht, htr]
  · intro markup htr hgs hparse
    simp [generateForegroundSVG, hni, ht, htr, hgs, generateIconSVG, hparse]
  · intro markup root htr hgs hparse
    refine ⟨setAttr (setAttr (setAttr (setAttr (setAttr root.attrs "x"
        (.num ((size - size * (jsOrQ cfg.foreground.size 80 / 100)) / 2))) "y"
        (.num ((size - size * (jsOrQ cfg.foreground.size 80 / 100)) / 2))) "width"
        (.num (size * (jsOrQ cfg.foreground.size 80 / 100)))) "height"
        (.num (size * (jsOrQ cfg.foreground.size 80 / 100)))) "stroke"
        (.str cfg.foreground.color), ?_, ?_, ?_, ?_, ?_, ?_⟩
    · simp [generateForegroundSVG, hni, ht, htr, hgs, generateIconSVG, hparse]
    · rw [lookupAttr_setAttr_ne _ _ _ _ (by decide),
        lookupAttr_setAttr_ne _ _ _ _ (by decide),
        lookupAttr_setAttr_ne _ _ _ _ (by decide),
        lookupAttr_setAttr_ne _ _ _ _ (by decide),
        lookupAttr_setAttr_self]
    · rw [lookupAttr_setAttr_ne _ _ _ _ (by decide),
        lookupAttr_setAttr_ne _ _ _ _ (by decide),
        lookupAttr_setAttr_ne _ _ _ _ (by decide),
        lookupAttr_setAttr_self]
    · rw [lookupAttr_setAttr_ne _ _ _ _ (by decide),
        lookupAttr_setAttr_ne _ _ _ _ (by decide),
        lookupAttr_setAttr_self]
    · rw [lookupAttr_setAttr_ne _ _ _ _ (by decide),
        lookupAttr_setAttr_self]
    · rw [lookupAttr_setAttr_self]

set_option maxRecDepth 8192 in
/-- C8 counterexample: the real pipeline on a tabler-style outline glyph.
The icons module code builds `starGlyph` with fill="none" on the root; after
the renderer embeds it under foreground color "#ff0000", the fill attribute
is still "none": only the stroke attribute is forced, so the claim that both
stroke and fill are forced to the foreground color is false. -/
theorem c8_counterexample :
    parseSvgRoot starGlyph = some
      ⟨[("xmlns", AttrVal.str "http://www.w3.org/2000/svg"),
        ("width", AttrVal.str "24"), ("height", AttrVal.str "24"),
        ("viewBox", AttrVal.str "0 0 24 24"), ("fill", AttrVal.str "none"),
        ("stroke", AttrVal.str "currentColor"),
        ("stroke-width", AttrVal.str "2"), ("stroke-linecap", AttrVal.str "round"),
        ("stroke-linejoin", AttrVal.str "round")],
        "<path d=\"M3 12h18\" />"⟩ ∧
    generateForegroundSVG cacheStar parseSvgRoot none cfgIconStar 512 =
      [SvgElem.iconElem
        [("xmlns", AttrVal.str "http://www.w3.org/2000/svg"),
         ("width", AttrVal.num (2048/5)), ("height", AttrVal.num (2048/5)),
         ("viewBox", AttrVal.str "0 0 24 24"), ("fill", AttrVal.str "none"),
         ("stroke", AttrVal.str "#ff0000"),
         ("stroke-width", AttrVal.str "2"), ("stroke-linecap", AttrVal.str "round"),
         ("stroke-linejoin", AttrVal.str "round"),
         ("x", AttrVal.num (256/5)), ("y", AttrVal.num (256/5))]
        "<path d=\"M3 12h18\" />"] ∧
    lookupAttr
        [("xmlns", AttrVal.str "http://www.w3.org/2000/svg"),
         ("width", AttrVal.num (2048/5)), ("height", AttrVal.num (2048/5)),
         ("viewBox", AttrVal.str "0 0 24 24"), ("fill", AttrVal.str "none"),
         ("stroke", AttrVal.str "#ff0000"),
         ("stroke-width", AttrVal.str "2"), ("stroke-linecap", AttrVal.str "round"),
         ("stroke-linejoin", AttrVal.str "round"),
         ("x", AttrVal.num (256/5)), ("y", AttrVal.num (256/5))]
        "fill" = some (AttrVal.str "none") ∧
    AttrVal.str "none" ≠ AttrVal.str "#ff0000" := by
  refine ⟨by decide, ?_, by decide, by decide⟩
  simp [generateForegroundSVG, cfgIconStar, fgIconStar, generateIconSVG,
    setAttr, jsOrQ, truthyStr,
    show "star".isEmpty = false from by decide,
    show getIconSvg cacheStar "star" = some starGlyph from by decide,
    show parseSvgRoot starGlyph = some
      ⟨[("xmlns", AttrVal.str "http://www.w3.org/2000/svg"),
        ("width", AttrVal.str "24"), ("height", AttrVal.str "24"),
        ("viewBox", AttrVal.str "0 0 24 24"), ("fill", AttrVal.str "none"),
        ("stroke", AttrVal.str "currentColor"),
        ("stroke-width", AttrVal.str "2"), ("stroke-linecap", AttrVal.str "round"),
        ("stroke-linejoin", AttrVal.str "round")],
        "<path d=\"M3 12h18\" />"⟩ from by decide]
  norm_num

set_option maxRecDepth 8192 in
/-- C8 witness: the amended C8 theorem evaluated on the unknown-icon
configuration (empty fragment) and on the cached `star` glyph parsed by the
reference parser (stroke forced to "#ff0000"). -/
theorem c8_icon_embedding_witness :
    generateForegroundSVG cacheEmpty parseSvgRoot none cfgTransparentIcon 512 = [] ∧
    ∃ a, generateForegroundSVG cacheStar parseSvgRoot none cfgIconStar 512 =
        [SvgElem.iconElem a "<path d=\"M3 12h18\" />"] ∧
      lookupAttr a "stroke" = some (AttrVal.str "#ff0000") := by
  have h0 := c8_icon_embedding cacheEmpty parseSvgRoot none cfgTransparentIcon 512
    (512 * (jsOrQ cfgTransparentIcon.foreground.size 80 / 100)) rfl rfl
  have h1 := c8_icon_embedding cacheStar parseSvgRoot none cfgIconStar 512
    (512 * (jsOrQ cfgIconStar.foreground.size 80 / 100)) rfl rfl
  refine ⟨h0.1 (by decide), ?_⟩
  obtain ⟨a, ha, hx, hy, hw, hh, hs⟩ := h1.2.2.2 starGlyph
    ⟨[("xmlns", AttrVal.str "http://www.w3.org/2000/svg"),
      ("width", AttrVal.str "24"), ("height", AttrVal.str "24"),
      ("viewBox", AttrVal.str "0 0 24 24"), ("fill", AttrVal.str "none"),
      ("stroke", AttrVal.str "currentColor"),
      ("stroke-width", AttrVal.str "2"), ("stroke-linecap", AttrVal.str "round"),
      ("stroke-linejoin", AttrVal.str "round")],
      "<path d=\"M3 12h18\" />"⟩
    (by decide) (by decide) (by decide)
  exact ⟨a, ha, hs⟩

theorem mem_svg_of_fg (iconsCache : IconsCache) (parseSvg : SvgParser)
    (measure : MeasureOracle)
    (cfg : IconConfig) (size : ℚ) (e : SvgElem)
    (h : e ∈ generateForegroundSVG iconsCache parseSvg measure cfg size) :
    e ∈ generateSVG iconsCache parseSvg measure cfg size := by
  simp only [generateSVG, List.mem_append]
  tauto

/-- C9: the render path is total by construction (every embedded function is
a total Lean function of the configuration and size), and every user-supplied
literal text content embedded anywhere in the assembled document is the
image of its source text under `escapeXml`, which expands each character
through `escChar` — in particular each of the five characters & < > " ' is
replaced by its standard character reference before being embedded. -/
theorem c9_total_escaped :
    (∀ s : String, (escapeXml s).data = s.data.flatMap escChar) ∧
    (∀ (iconsCache : IconsCache) (parseSvg : SvgParser)
    (measure : MeasureOracle) (cfg : IconConfig) (size : ℚ),
      ∀ e ∈ generateSVG iconsCache parseSvg measure cfg size,
        ∀ c ∈ contentStrings e, ∃ t, c = escapeXml t) := by
  constructor
  · intro s
    show escList s.data = s.data.flatMap escChar
    exact escList_flatMap s.data
  · intro iconsCache parseSvg measure cfg size e he c hc
    rcases mem_svg_cases _ _ _ _ _ _ he with h | h | h | h
    · rw [bg_contents_nil cfg.background (computedAlpha cfg.background) size e
        (Or.inl h)] at hc
      cases hc
    · rw [bg_contents_nil cfg.background (computedAlpha cfg.background) size e
        (Or.inr (Or.inl h))] at hc
      cases hc
    · rw [bg_contents_nil cfg.background (computedAlpha cfg.background) size e
        (Or.inr (Or.inr h))] at hc
      cases hc
    · exact fg_contents _ _ _ _ _ e h c hc

/-- C9 witness: the C9 theorem evaluated on "a&b" and on the document of the
monospace "&" configuration, whose only text content is "&amp;". -/
theorem c9_total_escaped_witness :
    (escapeXml "a&b").data = "a&b".data.flatMap escChar ∧
    (∃ t, "&amp;" = escapeXml t) := by
  refine ⟨c9_total_escaped.1 "a&b", ?_⟩
  have hfg : generateForegroundSVG cacheEmpty parseSvgRoot none cfgMonoAmp 125 =
      [SvgElem.charText (125/2) (195/2) 100 "#ffffff" "sans-serif" "normal"
        "normal" "none" "&amp;"] := by
    simp [generateForegroundSVG, cfgMonoAmp, fgMonoAmp, monoTextElems, monoLayout,
      jsOrQ, jsOrStr,
      show splitLines "&" = ["&"] from by decide,
      show longestLen ["&"] = 1 from by decide,
      show escapeXml (String.mk ['&']) = "&amp;" from by decide,
      show "&".length = 1 from by decide]
    norm_num
  have hmem : SvgElem.charText (125/2) (195/2) 100 "#ffffff" "sans-serif" "normal"
      "normal" "none" "&amp;" ∈ generateSVG cacheEmpty parseSvgRoot none cfgMonoAmp 125 := by
    refine mem_svg_of_fg _ _ _ _ _ _ ?_
    rw [hfg]
    simp
  exact c9_total_escaped.2 cacheEmpty parseSvgRoot none cfgMonoAmp 125 _ hmem "&amp;"
    (by simp [contentStrings])

end IconGen
